import Mathlib

/-
Verification of the reliability + speed + batch economics model.

The model is a pure numeric calculator: closed-form expected cost/time
formulas under a mandatory-verification policy, a two-worker comparator,
a batch aggregator, and a profit sweep with a brute-force sweet-spot
search.  JavaScript numbers are embedded as exact rationals (ℚ); every
concrete constant of the source is an exact decimal, so the rational
embedding is faithful on the scenarios of interest.  `Math.floor` is
`Int.floor` (floor toward −∞, as in JS on finite inputs).  Where JS
division by zero silently yields the non-finite float `Infinity`, a
separate Option-valued embedding (`jobsPerHourJS`, `attemptsFromBudgetJS`)
marks the non-finite outcome as `none`; everywhere else divisors are
nonzero and plain field division is used.

`Reliability` embeds `reliability.js`; `Part000` embeds the second,
near-duplicate model variant.
-/

namespace Reliability

/- A worker record: first-try success probability `p`, wage per attempt
`w`, hours of work per attempt `tWork`. -/
structure Worker where
  label : String
  p : ℚ
  w : ℚ
  tWork : ℚ

/- Shared verification cost `C` per attempt and fix cost `F` per bad attempt. -/
structure SharedCost where
  C : ℚ
  F : ℚ

/- Shared verification time and fix time per attempt. -/
structure SharedTime where
  tVerify : ℚ
  tFix : ℚ

/- EV_trust = p * B - (1 - p) * L -/
def expectedValueTrust (p B L : ℚ) : ℚ :=
  p * B - (1 - p) * L

/- EV_verify = B - C - (1 - p) * F -/
def expectedValueVerify (p B C F : ℚ) : ℚ :=
  B - C - (1 - p) * F

/- Cost_per_finished_job = w + C + (1 - p) * F -/
def expectedCostWithVerification (p w C F : ℚ) : ℚ :=
  w + C + (1 - p) * F

/- Time_per_finished_job = tWork + tVerify + (1 - p) * tFix -/
def expectedTimeWithVerification (p tWork tVerify tFix : ℚ) : ℚ :=
  tWork + tVerify + (1 - p) * tFix

/- jobsPerHour = 1 / expectedTimePerJobHours.  In ℚ the (unguarded) source
division at 0 collapses to 0; the JS value there is the float Infinity,
which `jobsPerHourJS` below models explicitly. -/
def jobsPerHour (expectedTimePerJobHours : ℚ) : ℚ :=
  1 / expectedTimePerJobHours

/- JS number semantics of the same unguarded division: JS throws no error,
`1 / 0` evaluates to the non-finite float Infinity, marked `none` here. -/
def jobsPerHourJS (expectedTimePerJobHours : ℚ) : Option ℚ :=
  if expectedTimePerJobHours = 0 then none
  else some (1 / expectedTimePerJobHours)

/- JS `Math.floor(budget / timePerJob)` as used for attempts-from-budget:
no error is thrown; division by zero gives Infinity and
`Math.floor(Infinity)` is again Infinity, marked `none` here. -/
def attemptsFromBudgetJS (budgetHours timePerJob : ℚ) : Option ℤ :=
  if timePerJob = 0 then none
  else some ⌊budgetHours / timePerJob⌋

/- Which of the two compared workers wins a comparison. -/
inductive Side where
  | A
  | B

/- Cost half of the comparator result. -/
structure CostCmp where
  costA : ℚ
  costB : ℚ
  cheaper : Option Side
  diff : ℚ

/- Time half of the comparator result. -/
structure TimeCmp where
  timeA : ℚ
  timeB : ℚ
  throughputA : ℚ
  throughputB : ℚ
  faster : Option Side
  diff : ℚ

/- Full comparator result. -/
structure CompareResult where
  cost : CostCmp
  time : TimeCmp

def compareWorkersCostAndSpeed (workerA workerB : Worker)
    (sharedCost : SharedCost) (sharedTime : SharedTime) : CompareResult :=
  let eps : ℚ := 1 / 1000000000
  let costA := expectedCostWithVerification workerA.p workerA.w sharedCost.C sharedCost.F
  let costB := expectedCostWithVerification workerB.p workerB.w sharedCost.C sharedCost.F
  let timeA := expectedTimeWithVerification workerA.p workerA.tWork sharedTime.tVerify sharedTime.tFix
  let timeB := expectedTimeWithVerification workerB.p workerB.tWork sharedTime.tVerify sharedTime.tFix
  let throughputA := jobsPerHour timeA
  let throughputB := jobsPerHour timeB
  let cheaper : Option Side :=
    if |costA - costB| > eps then (if costA < costB then some Side.A else some Side.B) else none
  let faster : Option Side :=
    if |timeA - timeB| > eps then (if timeA < timeB then some Side.A else some Side.B) else none
  { cost := { costA := costA, costB := costB, cheaper := cheaper, diff := |costA - costB| }
    time := { timeA := timeA, timeB := timeB, throughputA := throughputA,
              throughputB := throughputB, faster := faster, diff := |timeA - timeB| } }

/- maxPremium = (pHigh - pLow) * F -/
def maxWagePremiumForHigherReliability (pLow pHigh F : ℚ) : ℚ :=
  (pHigh - pLow) * F

/- Batch summary over a fixed number of attempts. -/
structure BatchSummary where
  label : String
  attempts : ℕ
  p : ℚ
  w : ℚ
  costPerJob : ℚ
  timePerJob : ℚ
  totalCost : ℚ
  totalTime : ℚ
  expectedCorrectFirstPass : ℚ
  expectedWrongFirstPass : ℚ
  finishedCorrectUnits : ℕ

def summarizeBatchByAttempts (label : String) (attempts : ℕ) (worker : Worker)
    (sharedCost : SharedCost) (sharedTime : SharedTime) : BatchSummary :=
  let costPerJob := expectedCostWithVerification worker.p worker.w sharedCost.C sharedCost.F
  let timePerJob := expectedTimeWithVerification worker.p worker.tWork sharedTime.tVerify sharedTime.tFix
  let totalCost := (attempts : ℚ) * costPerJob
  let totalTime := (attempts : ℚ) * timePerJob
  let expectedCorrectFirstPass := worker.p * (attempts : ℚ)
  let expectedWrongFirstPass := (1 - worker.p) * (attempts : ℚ)
  let finishedCorrectUnits := attempts
  { label := label, attempts := attempts, p := worker.p, w := worker.w,
    costPerJob := costPerJob, timePerJob := timePerJob,
    totalCost := totalCost, totalTime := totalTime,
    expectedCorrectFirstPass := expectedCorrectFirstPass,
    expectedWrongFirstPass := expectedWrongFirstPass,
    finishedCorrectUnits := finishedCorrectUnits }

/- Scenario constants of section 7 of the source. -/
def fastWorker : Worker :=
  { label := "Fast but sloppy dev", p := 0.7, w := 120 * 3.0, tWork := 3.0 }

def slowWorker : Worker :=
  { label := "Slow but careful dev", p := 0.95, w := 120 * 4.0, tWork := 4.0 }

def sharedCost : SharedCost :=
  { C := 160 * 0.75, F := 140 * 2.25 }

def sharedTime : SharedTime :=
  { tVerify := 0.75, tFix := 2.25 }

/- A worker record constructed, exactly as the source does, as a plain
record literal with an out-of-range probability: nothing validates it. -/
def badWorker : Worker :=
  { label := "invalid p", p := 2, w := 0, tWork := 1 }

/- Capped-linear speed-reliability coupling of sweep 7e:
tWorkFast = max(slow.tWork * (pFast / slow.p), speedFloor * slow.tWork). -/
def tWorkFastCapped (pFast : ℚ) : ℚ :=
  let speedFloor : ℚ := 0.5
  let linear := slowWorker.tWork * (pFast / slowWorker.p)
  let minWork := slowWorker.tWork * speedFloor
  max linear minWork

/- Constants of sweep 7f: cheap fast dev + expensive verifier. -/
def sweep2UnitPrice : ℚ := 1000

def sweep2SprintHours : ℚ := 80

def fastDevRate : ℚ := 80

def verifierRate : ℚ := 180

def tVerify2 : ℚ := sharedTime.tVerify

def tFix2 : ℚ := 4.0

def C2 : ℚ := sharedCost.C

def F2 : ℚ := verifierRate * tFix2

/- Time and cost per job given (p, tWork, hourlyRate) in sweep 7f. -/
def timeCostPerJobSweep2 (p tWork hourlyRate : ℚ) : ℚ × ℚ :=
  let timePerJob := expectedTimeWithVerification p tWork tVerify2 tFix2
  let costPerJob := expectedCostWithVerification p (hourlyRate * tWork) C2 F2
  (timePerJob, costPerJob)

/- The best-so-far record of the sweet-spot search (the JS object
{ pFast, profitFast, attempts, tWorkFast }). -/
structure SpotRec where
  pFast : ℚ
  profitFast : ℚ
  attempts : ℤ
  tWorkFast : ℚ

/- One loop body evaluation of findSweetSpotSweep2 at a given pFast. -/
def spotAt (pFast : ℚ) : SpotRec :=
  let tWorkFast := slowWorker.tWork * (pFast / slowWorker.p)
  let tc := timeCostPerJobSweep2 pFast tWorkFast fastDevRate
  let attemptsFast : ℤ := ⌊sweep2SprintHours / tc.1⌋
  let revenueFast := (attemptsFast : ℚ) * sweep2UnitPrice
  let totalCostFast := (attemptsFast : ℚ) * tc.2
  { pFast := pFast, profitFast := revenueFast - totalCostFast,
    attempts := attemptsFast, tWorkFast := tWorkFast }

/- The accumulator update: the JS `best` starts at profitFast = -Infinity
with pFast = null (modelled `none`, which every finite profit beats), and
is replaced whenever the current point's profit is strictly greater. -/
def stepBest (best : Option SpotRec) (pFast : ℚ) : Option SpotRec :=
  match best with
  | none => some (spotAt pFast)
  | some b => if (spotAt pFast).profitFast > b.profitFast then some (spotAt pFast) else some b

/- Exact-rational unrolling of the JS loop header
for (pFast = 0.2; pFast <= 0.95 + 1e-9; pFast += 0.01):
the visited points are 1/5 + k/100 for k = 0, ..., 75. -/
def sweepGrid : List ℚ :=
  (List.range 76).map (fun k : ℕ => 1 / 5 + (k : ℚ) / 100)

/- Brute-force sweet-spot search of sweep 7f. -/
def findSweetSpotSweep2 : Option SpotRec :=
  sweepGrid.foldl stepBest none

/- Label swap, for stating comparator symmetry. -/
def swapSide : Option Side → Option Side
  | none => none
  | some Side.A => some Side.B
  | some Side.B => some Side.A

end Reliability

namespace Part000

/- Worker record of the second model variant: no time fields. -/
structure Worker where
  label : String
  p : ℚ
  w : ℚ

/- Shared verification and fix costs of the second variant. -/
structure Shared where
  C : ℚ
  F : ℚ

/- Cost_with_verification = w + C + (1 - p) * F (duplicate of the
primitive in the main file). -/
def expectedCostWithVerification (p w C F : ℚ) : ℚ :=
  w + C + (1 - p) * F

/- Comparator result of the second variant. -/
structure CmpResult where
  cheaper : Option Reliability.Side
  costA : ℚ
  costB : ℚ
  diff : ℚ

def compareWorkersWithVerification (workerA workerB : Worker) (shared : Shared) : CmpResult :=
  let costA := expectedCostWithVerification workerA.p workerA.w shared.C shared.F
  let costB := expectedCostWithVerification workerB.p workerB.w shared.C shared.F
  if |costA - costB| < 1 / 1000000000 then
    { cheaper := none, costA := costA, costB := costB, diff := 0 }
  else if costA < costB then
    { cheaper := some Reliability.Side.A, costA := costA, costB := costB, diff := costB - costA }
  else
    { cheaper := some Reliability.Side.B, costA := costA, costB := costB, diff := costA - costB }

/- maxPremium = (pHigh - pLow) * F (duplicate of the main file's). -/
def maxWagePremiumForHigherReliability (pLow pHigh F : ℚ) : ℚ :=
  (pHigh - pLow) * F

end Part000

namespace Reliability

/-- C1: with the source-default scenario (fast p=0.7, w=360, tWork=3; slow
p=0.95, w=480, tWork=4; shared C=120, F=315, tVerify=0.75, tFix=2.25),
`expectedCostWithVerification` returns exactly 574.5 for the fast worker and
615.75 for the slow worker, and `expectedTimeWithVerification` returns
exactly 4.425 h for the fast worker and 4.8625 h for the slow worker (the
equalities are exact in ℚ, hence within any tolerance, in particular 1e-9). -/
theorem c1_default_scenario_values :
    expectedCostWithVerification fastWorker.p fastWorker.w sharedCost.C sharedCost.F = 574.5 ∧
    expectedCostWithVerification slowWorker.p slowWorker.w sharedCost.C sharedCost.F = 615.75 ∧
    expectedTimeWithVerification fastWorker.p fastWorker.tWork sharedTime.tVerify sharedTime.tFix = 4.425 ∧
    expectedTimeWithVerification slowWorker.p slowWorker.tWork sharedTime.tVerify sharedTime.tFix = 4.8625 := by
  refine ⟨?_, ?_, ?_, ?_⟩ <;>
    norm_num [expectedCostWithVerification, expectedTimeWithVerification,
      fastWorker, slowWorker, sharedCost, sharedTime]

/-- C2: for every worker, shared cost, shared time, and attempts count
n ≥ 0, `summarizeBatchByAttempts` returns totalCost = n * costPerJob,
totalTime = n * timePerJob, expectedCorrectFirstPass = p * n,
expectedWrongFirstPass = (1 - p) * n, and finishedCorrectUnits = n. -/
theorem c2_batch_scales_per_job (label : String) (n : ℕ) (worker : Worker)
    (sc : SharedCost) (st : SharedTime) :
    (summarizeBatchByAttempts label n worker sc st).totalCost =
      (n : ℚ) * (summarizeBatchByAttempts label n worker sc st).costPerJob ∧
    (summarizeBatchByAttempts label n worker sc st).totalTime =
      (n : ℚ) * (summarizeBatchByAttempts label n worker sc st).timePerJob ∧
    (summarizeBatchByAttempts label n worker sc st).expectedCorrectFirstPass =
      worker.p * (n : ℚ) ∧
    (summarizeBatchByAttempts label n worker sc st).expectedWrongFirstPass =
      (1 - worker.p) * (n : ℚ) ∧
    (summarizeBatchByAttempts label n worker sc st).finishedCorrectUnits = n :=
  ⟨rfl, rfl, rfl, rfl, rfl⟩

/-- C3: for the capped-linear coupling with speedFloor = 0.5, the computed
tWorkFast never falls below 0.5 * slowWorker.tWork for any pFast ≥ 0, and at
pFast = 0 it equals 0.5 * slowWorker.tWork exactly. -/
theorem c3_capped_floor (pFast : ℚ) (h : 0 ≤ pFast) :
    (0.5 : ℚ) * slowWorker.tWork ≤ tWorkFastCapped pFast ∧
    tWorkFastCapped 0 = (0.5 : ℚ) * slowWorker.tWork := by
  constructor
  · show (0.5 : ℚ) * slowWorker.tWork ≤
      max (slowWorker.tWork * (pFast / slowWorker.p)) (slowWorker.tWork * 0.5)
    exact le_max_of_le_right (le_of_eq (mul_comm _ _))
  · norm_num [tWorkFastCapped, slowWorker, max_def]

/-- Witness for C3 at pFast = 1. -/
theorem c3_capped_floor_witness :
    (0 : ℚ) ≤ 1 ∧
    ((0.5 : ℚ) * slowWorker.tWork ≤ tWorkFastCapped 1 ∧
      tWorkFastCapped 0 = (0.5 : ℚ) * slowWorker.tWork) :=
  ⟨by norm_num, c3_capped_floor 1 (by norm_num)⟩

/-- C5 counterexample: at p1 = 0 < p2 = 1 (both in [0,1]) with w = C = 0 and
F = 0 (all ≥ 0), the cost at p2 equals the cost at p1, so the cost is not
strictly lower at the higher reliability: the claimed strict decrease for
all w, C, F ≥ 0 is false. -/
theorem c5_counterexample :
    ((0 : ℚ) ≤ 0 ∧ (0 : ℚ) < 1 ∧ (1 : ℚ) ≤ 1 ∧ (0 : ℚ) ≤ 0) ∧
    ¬ expectedCostWithVerification 1 0 0 0 < expectedCostWithVerification 0 0 0 0 := by
  norm_num [expectedCostWithVerification]

/-- C5 amended: for p1 < p2 and F strictly positive (rather than merely
nonnegative, as the counterexample with F = 0 forces), holding w and C
fixed, the expected cost at p2 is strictly less than at p1. -/
theorem c5_cost_strictly_decreasing (p1 p2 w C F : ℚ) (h12 : p1 < p2) (hF : 0 < F) :
    expectedCostWithVerification p2 w C F < expectedCostWithVerification p1 w C F := by
  unfold expectedCostWithVerification
  nlinarith [mul_pos (sub_pos.mpr h12) hF]

/-- Witness for the amended C5 at p1 = 1/2, p2 = 1, w = 360, C = 120, F = 315. -/
theorem c5_cost_strictly_decreasing_witness :
    ((1 : ℚ) / 2 < 1 ∧ (0 : ℚ) < 315) ∧
    expectedCostWithVerification 1 360 120 315 < expectedCostWithVerification (1/2) 360 120 315 :=
  ⟨⟨by norm_num, by norm_num⟩,
    c5_cost_strictly_decreasing (1/2) 1 360 120 315 (by norm_num) (by norm_num)⟩

/-- Helper: the winner-label computation of the comparator is antisymmetric
in its two arguments, up to the label swap. -/
theorem winnerLabel_swap (x y : ℚ) :
    (if |x - y| > (1 / 1000000000 : ℚ) then (if x < y then some Side.A else some Side.B) else none) =
      swapSide (if |y - x| > (1 / 1000000000 : ℚ) then (if y < x then some Side.A else some Side.B) else none) := by
  rw [abs_sub_comm y x]
  by_cases he : |x - y| > (1 / 1000000000 : ℚ)
  · rw [if_pos he, if_pos he]
    rcases lt_trichotomy x y with h | h | h
    · rw [if_pos h, if_neg (not_lt.mpr h.le)]
      rfl
    · exfalso
      rw [h, sub_self, abs_zero] at he
      exact absurd he (by norm_num)
    · rw [if_neg (not_lt.mpr h.le), if_pos h]
      rfl
  · rw [if_neg he, if_neg he]
    rfl

/-- C6: swapping the two workers flips the cheaper and faster labels (both
null in the tie cases) and leaves both diff magnitudes unchanged. -/
theorem c6_comparator_symmetry (workerA workerB : Worker) (sc : SharedCost) (st : SharedTime) :
    (compareWorkersCostAndSpeed workerA workerB sc st).cost.cheaper =
      swapSide ((compareWorkersCostAndSpeed workerB workerA sc st).cost.cheaper) ∧
    (compareWorkersCostAndSpeed workerA workerB sc st).time.faster =
      swapSide ((compareWorkersCostAndSpeed workerB workerA sc st).time.faster) ∧
    (compareWorkersCostAndSpeed workerA workerB sc st).cost.diff =
      (compareWorkersCostAndSpeed workerB workerA sc st).cost.diff ∧
    (compareWorkersCostAndSpeed workerA workerB sc st).time.diff =
      (compareWorkersCostAndSpeed workerB workerA sc st).time.diff := by
  refine ⟨?_, ?_, ?_, ?_⟩
  · simpa only [compareWorkersCostAndSpeed] using winnerLabel_swap _ _
  · simpa only [compareWorkersCostAndSpeed] using winnerLabel_swap _ _
  · simp only [compareWorkersCostAndSpeed]
    exact abs_sub_comm _ _
  · simp only [compareWorkersCostAndSpeed]
    exact abs_sub_comm _ _

/-- C7: the premium is linear in F (additive and homogeneous) and linear in
the reliability gap pHigh − pLow (additive and homogeneous in the gap), and
the premium of a zero gap is 0 for every F. -/
theorem c7_premium_linear (pLow pHigh d1 d2 F F1 F2 a : ℚ) :
    maxWagePremiumForHigherReliability pLow pLow F = 0 ∧
    maxWagePremiumForHigherReliability pLow pHigh (F1 + F2) =
      maxWagePremiumForHigherReliability pLow pHigh F1 +
        maxWagePremiumForHigherReliability pLow pHigh F2 ∧
    maxWagePremiumForHigherReliability pLow pHigh (a * F) =
      a * maxWagePremiumForHigherReliability pLow pHigh F ∧
    maxWagePremiumForHigherReliability pLow (pLow + (d1 + d2)) F =
      maxWagePremiumForHigherReliability pLow (pLow + d1) F +
        maxWagePremiumForHigherReliability pLow (pLow + d2) F ∧
    maxWagePremiumForHigherReliability pLow (pLow + a * d1) F =
      a * maxWagePremiumForHigherReliability pLow (pLow + d1) F := by
  refine ⟨?_, ?_, ?_, ?_, ?_⟩ <;>
    (unfold maxWagePremiumForHigherReliability; ring)

/-- C8 (code-bug evidence): the source constructs worker records as plain
object literals with no validation, so a worker with p = 2 is constructed
successfully, and feeding its fields into the cost formula yields a
negative cost (−1 with C = 0, F = 1) instead of failing fast. -/
theorem c8_invalid_p_not_rejected :
    badWorker.p = 2 ∧
    expectedCostWithVerification badWorker.p badWorker.w 0 1 = -1 ∧
    expectedCostWithVerification badWorker.p badWorker.w 0 1 < 0 := by
  refine ⟨rfl, ?_, ?_⟩ <;> norm_num [expectedCostWithVerification, badWorker]

/-- C9 (code-bug evidence): at timePerJob = 0 the unguarded source divisions
do not raise a defined error: `jobsPerHour` evaluates to the non-finite JS
value Infinity (modelled `none` by `jobsPerHourJS`) and the attempts-from-
budget floor division likewise propagates Infinity (`attemptsFromBudgetJS`
returns `none`), silently. -/
theorem c9_degenerate_time_not_guarded :
    jobsPerHourJS 0 = none ∧ attemptsFromBudgetJS 80 0 = none :=
  ⟨rfl, rfl⟩

/-- C10 counterexample: two workers with equal p and a wage gap of exactly
1e-9 (costs 1e-9 vs 0, gap exactly at the tolerance) make the two
comparators disagree on the cheaper label: `compareWorkersCostAndSpeed`
(strict `> eps` test) reports a tie (`none`) while the variant
`compareWorkersWithVerification` (strict `< eps` tie test) reports worker B
as cheaper, refuting the claim that the labels always agree. -/
theorem c10_counterexample :
    (compareWorkersCostAndSpeed ⟨"A", 1/2, 1/1000000000, 1⟩ ⟨"B", 1/2, 0, 1⟩ ⟨0, 0⟩ ⟨0, 0⟩).cost.cheaper = none ∧
    (Part000.compareWorkersWithVerification ⟨"A", 1/2, 1/1000000000⟩ ⟨"B", 1/2, 0⟩ ⟨0, 0⟩).cheaper = some Side.B := by
  have key : |(1/1000000000 + 0 + (1 - 1/2) * 0 : ℚ) - (0 + 0 + (1 - 1/2) * 0)| = 1/1000000000 := by
    rw [show (1/1000000000 + 0 + (1 - 1/2) * 0 : ℚ) - (0 + 0 + (1 - 1/2) * 0) = 1/1000000000 by ring]
    exact abs_of_nonneg (by norm_num)
  constructor
  · simp only [compareWorkersCostAndSpeed, expectedCostWithVerification, key]
    norm_num
  · simp only [Part000.compareWorkersWithVerification, Part000.expectedCostWithVerification, key]
    norm_num

/-- C10 amended: the duplicated cost primitive is extensionally equal across
the two variants; on every input the two comparators agree on costA and
costB, and they report the same cheaper label whenever the cost gap is not
exactly equal to the tolerance 1e-9 (at a gap of exactly 1e-9 — the
counterexample — the first reports a tie and the second a winner). -/
theorem c10_variants_agree (la lb : String) (pA wA tA pB wB tB C F tV tF : ℚ)
    (hgap : |expectedCostWithVerification pA wA C F - expectedCostWithVerification pB wB C F| ≠ 1/1000000000) :
    (∀ p w C0 F0 : ℚ, expectedCostWithVerification p w C0 F0 = Part000.expectedCostWithVerification p w C0 F0) ∧
    (compareWorkersCostAndSpeed ⟨la, pA, wA, tA⟩ ⟨lb, pB, wB, tB⟩ ⟨C, F⟩ ⟨tV, tF⟩).cost.costA =
      (Part000.compareWorkersWithVerification ⟨la, pA, wA⟩ ⟨lb, pB, wB⟩ ⟨C, F⟩).costA ∧
    (compareWorkersCostAndSpeed ⟨la, pA, wA, tA⟩ ⟨lb, pB, wB, tB⟩ ⟨C, F⟩ ⟨tV, tF⟩).cost.costB =
      (Part000.compareWorkersWithVerification ⟨la, pA, wA⟩ ⟨lb, pB, wB⟩ ⟨C, F⟩).costB ∧
    (compareWorkersCostAndSpeed ⟨la, pA, wA, tA⟩ ⟨lb, pB, wB, tB⟩ ⟨C, F⟩ ⟨tV, tF⟩).cost.cheaper =
      (Part000.compareWorkersWithVerification ⟨la, pA, wA⟩ ⟨lb, pB, wB⟩ ⟨C, F⟩).cheaper := by
  simp only [expectedCostWithVerification, Part000.expectedCostWithVerification] at hgap
  refine ⟨fun _ _ _ _ => rfl, ?_, ?_, ?_⟩ <;>
  · simp only [compareWorkersCostAndSpeed, Part000.compareWorkersWithVerification,
      expectedCostWithVerification, Part000.expectedCostWithVerification]
    split_ifs with h1 h2 h3 <;>
      first
        | rfl
        | (exfalso; linarith)
        | exact absurd (le_antisymm (not_lt.mp ‹¬ _ < _›) (not_lt.mp ‹¬ _ < _›)) hgap

/-- Witness for the amended C10 at the demo scenario of the second variant:
p 0.7 / wage 50 versus p 0.8 / wage 60 under shared C = 20, F = 100, where
both costs are exactly 100 and the gap 0 differs from 1e-9. -/
theorem c10_variants_agree_witness :
    (|expectedCostWithVerification 0.7 50 20 100 - expectedCostWithVerification 0.8 60 20 100| ≠ (1/1000000000 : ℚ)) ∧
    ((∀ p w C0 F0 : ℚ, expectedCostWithVerification p w C0 F0 = Part000.expectedCostWithVerification p w C0 F0) ∧
      (compareWorkersCostAndSpeed ⟨"w70", 0.7, 50, 0⟩ ⟨"w80", 0.8, 60, 0⟩ ⟨20, 100⟩ ⟨0, 0⟩).cost.costA =
        (Part000.compareWorkersWithVerification ⟨"w70", 0.7, 50⟩ ⟨"w80", 0.8, 60⟩ ⟨20, 100⟩).costA ∧
      (compareWorkersCostAndSpeed ⟨"w70", 0.7, 50, 0⟩ ⟨"w80", 0.8, 60, 0⟩ ⟨20, 100⟩ ⟨0, 0⟩).cost.costB =
        (Part000.compareWorkersWithVerification ⟨"w70", 0.7, 50⟩ ⟨"w80", 0.8, 60⟩ ⟨20, 100⟩).costB ∧
      (compareWorkersCostAndSpeed ⟨"w70", 0.7, 50, 0⟩ ⟨"w80", 0.8, 60, 0⟩ ⟨20, 100⟩ ⟨0, 0⟩).cost.cheaper =
        (Part000.compareWorkersWithVerification ⟨"w70", 0.7, 50⟩ ⟨"w80", 0.8, 60⟩ ⟨20, 100⟩).cheaper) :=
  ⟨by norm_num [expectedCostWithVerification],
    c10_variants_agree "w70" "w80" 0.7 50 0 0.8 60 0 20 100 0 0
      (by norm_num [expectedCostWithVerification])⟩

/-- Helper: folding stepBest from a `some` accumulator yields a `some` whose
profit dominates the accumulator and every scanned point, and which is
either the accumulator or the evaluation of one of the scanned points. -/
theorem foldl_stepBest_some (l : List ℚ) (b : SpotRec) :
    ∃ c, l.foldl stepBest (some b) = some c ∧
      (c = b ∨ ∃ q ∈ l, c = spotAt q) ∧
      b.profitFast ≤ c.profitFast ∧
      ∀ q ∈ l, (spotAt q).profitFast ≤ c.profitFast := by
  induction l generalizing b with
  | nil => exact ⟨b, rfl, Or.inl rfl, le_refl _, by simp⟩
  | cons q l ih =>
    rw [List.foldl_cons]
    by_cases hq : (spotAt q).profitFast > b.profitFast
    · have hstep : stepBest (some b) q = some (spotAt q) := by
        simp [stepBest, hq]
      rw [hstep]
      obtain ⟨c, hc, hmem, hge, hall⟩ := ih (spotAt q)
      refine ⟨c, hc, ?_, le_trans (le_of_lt hq) hge, ?_⟩
      · rcases hmem with h | ⟨r, hr, hcr⟩
        · exact Or.inr ⟨q, List.mem_cons_self q l, h⟩
        · exact Or.inr ⟨r, List.mem_cons_of_mem q hr, hcr⟩
      · intro r hr
        rcases List.mem_cons.mp hr with rfl | hr'
        · exact hge
        · exact hall r hr'
    · have hstep : stepBest (some b) q = some b := by
        simp [stepBest, hq]
      rw [hstep]
      obtain ⟨c, hc, hmem, hge, hall⟩ := ih b
      refine ⟨c, hc, ?_, hge, ?_⟩
      · rcases hmem with h | ⟨r, hr, hcr⟩
        · exact Or.inl h
        · exact Or.inr ⟨r, List.mem_cons_of_mem q hr, hcr⟩
      intro r hr
      rcases List.mem_cons.mp hr with rfl | hr'
      · exact le_trans (not_lt.mp hq) hge
      · exact hall r hr'

/-- Helper: on a nonempty scan list the search starting from the JS initial
accumulator (profit -Infinity, modelled `none`) returns a scanned point
whose profit dominates every scanned point. -/
theorem foldl_stepBest_none_spec (l : List ℚ) (hl : l ≠ []) :
    ∃ c, l.foldl stepBest none = some c ∧
      (∃ r ∈ l, c = spotAt r) ∧
      ∀ r ∈ l, (spotAt r).profitFast ≤ c.profitFast := by
  rcases l with _ | ⟨q, l⟩
  · exact absurd rfl hl
  · rw [List.foldl_cons]
    rw [show stepBest none q = some (spotAt q) from rfl]
    obtain ⟨c, hc, hmem, hge, hall⟩ := foldl_stepBest_some l (spotAt q)
    refine ⟨c, hc, ?_, ?_⟩
    · rcases hmem with h | ⟨r, hr, hcr⟩
      · exact ⟨q, List.mem_cons_self q l, h⟩
      · exact ⟨r, List.mem_cons_of_mem q hr, hcr⟩
    · intro r hr
      rcases List.mem_cons.mp hr with rfl | hr'
      · exact hge
      · exact hall r hr'

/-- Helper: the scan list is nonempty. -/
theorem sweepGrid_ne_nil : sweepGrid ≠ [] := by
  have hlen : sweepGrid.length = 76 := by
    simp only [sweepGrid, List.length_map, List.length_range]
  intro h
  rw [h] at hlen
  simp at hlen

/-- Helper: every scanned grid point lies in [0.2, 0.95]. -/
theorem sweepGrid_bounds (q : ℚ) (hq : q ∈ sweepGrid) : 1/5 ≤ q ∧ q ≤ 19/20 := by
  simp only [sweepGrid, List.mem_map, List.mem_range] at hq
  obtain ⟨k, hk, rfl⟩ := hq
  have h0 : (0 : ℚ) ≤ (k : ℚ) / 100 :=
    div_nonneg (Nat.cast_nonneg k) (by norm_num)
  have h75 : (k : ℚ) ≤ 75 := by
    have hk75 : k ≤ 75 := by omega
    exact_mod_cast hk75
  constructor
  · linarith
  · have : (k : ℚ) / 100 ≤ 75 / 100 := by linarith
    linarith

/-- C4: the sweet-spot search over the grid 0.2, 0.21, ..., 0.95 returns a
best record whose pFast lies within the scanned domain bounds
[0.2, 0.95] = [1/5, 19/20]; the profit it reports is exactly the sweep
profit computed at that pFast, and is greater than or equal to the profit
computed at every sampled grid point of the run. -/
theorem c4_sweet_spot :
    ∃ c, findSweetSpotSweep2 = some c ∧
      1/5 ≤ c.pFast ∧ c.pFast ≤ 19/20 ∧
      c.profitFast = (spotAt c.pFast).profitFast ∧
      ∀ q ∈ sweepGrid, (spotAt q).profitFast ≤ c.profitFast := by
  obtain ⟨c, hc, ⟨r, hr, hcr⟩, hall⟩ := foldl_stepBest_none_spec sweepGrid sweepGrid_ne_nil
  have hb := sweepGrid_bounds r hr
  have hpfr : (spotAt r).pFast = r := rfl
  have hpf : c.pFast = r := by rw [hcr, hpfr]
  refine ⟨c, hc, ?_, ?_, ?_, hall⟩
  · rw [hpf]
    exact hb.1
  · rw [hpf]
    exact hb.2
  · rw [hpf, hcr]

end Reliability
